import Mathlib

/-
  Shallow embedding of the Stroke rasterizer core
  (src/gateware/src/tiliqua/raster_stroke.py, class Stroke.elaborate).

  The hardware is a single synchronous FSM.  Registers become fields of a
  state record; combinational signals become pure functions of the state,
  the per-cycle inputs and the configuration; one clock tick becomes one
  application of the step function.  Machine integers are modelled as Nat
  (unsigned signals) together with an explicit two-complement
  interpretation for the signed 16-bit sample registers; every assignment
  to a w-bit signal truncates with an explicit mod 2^w, exactly as the
  hardware does.
-/

namespace RasterStroke

/-- Interpret the raw bits of a 16-bit register as a signed two-complement
integer, as Amaranth does for a Signal(signed(16)). -/
def toSigned16 (n : Nat) : Int :=
  if n % 65536 < 32768 then ((n % 65536 : Nat) : Int) else ((n % 65536 : Nat) : Int) - 65536

/-- Truncate an integer to the raw 16 bits stored by a 16-bit register
(assignment to a Signal of width 16 keeps the low 16 bits of the
two-complement representation). -/
def wrap16 (v : Int) : Nat := (v % 65536).toNat

/-- Framebuffer geometry, supplied externally by the DMAFramebuffer resource
(self.fb in the source): display timings, bytes per pixel, base address and
the wishbone address width. -/
structure Geometry where
  h_active : Nat
  v_active : Nat
  bytes_per_pixel : Nat
  fb_base : Nat
  addr_width : Nat
deriving DecidableEq

/-- fb_hwords in elaborate: the framebuffer width in 32-bit words,
(h_active * bytes_per_pixel) // 4. -/
def fb_hwords (g : Geometry) : Nat := g.h_active * g.bytes_per_pixel / 4

/-- Configuration surface of the core: the Signals self.hue, self.intensity,
self.scale_x, self.scale_y, self.x_offset, self.y_offset plus the ports
rotate_left and enable.  They are driven externally and read by the core
every cycle, so they travel with the per-cycle inputs. -/
structure Config where
  hue : Nat
  intensity : Nat
  scale_x : Nat
  scale_y : Nat
  x_offset : Int
  y_offset : Int
  rotate_left : Bool
  enable : Bool
deriving DecidableEq

/-- States of the FSM in Stroke.elaborate, in source order (OFF is the
reset state, being the first state added to the FSM). -/
inductive FsmState
  | OFF
  | LATCH0
  | LATCH1
  | READ
  | WAIT
  | WAIT2
  | WAIT3
  | WRITE
deriving DecidableEq

/-- Synchronous registers of the core: the FSM state, the four latched
sample registers (raw 16-bit contents of signed(16) Signals), the latched
intensity step, the captured read word and extracted byte, and the
registered bus address and byte select. -/
structure StrokeState where
  fsm : FsmState
  sample_x : Nat
  sample_y : Nat
  sample_p : Nat
  sample_c : Nat
  sample_intensity : Nat
  px_read : Nat
  px_sum : Nat
  bus_adr : Nat
  bus_sel : Nat
deriving DecidableEq

/-- Per-cycle inputs: the configuration as sampled this cycle, the enable of
the owning framebuffer (which drives the ResetInserter), the point stream
handshake and payload lanes (raw 16-bit ASQ sample values), and the bus
acknowledge and read data returned by the memory. -/
structure Inputs where
  cfg : Config
  fb_enable : Bool
  valid : Bool
  payload0 : Nat
  payload1 : Nat
  payload2 : Nat
  payload3 : Nat
  ack : Bool
  dat_r : Nat
deriving DecidableEq

/-- subpix_shift: combinational sub-word bit shift of the addressed pixel.
Rotated: low two bits of (-sample_y) times 8.  Unrotated: low two bits of
sample_x times 8.  The low two bits of a two-complement value are its
residue modulo 4. -/
def subpix_shift (cfg : Config) (st : StrokeState) : Nat :=
  if cfg.rotate_left then
    (((-(toSigned16 st.sample_y)) % 4).toNat) * 8
  else
    (st.sample_x % 4) * 8

/-- x_offs: combinational horizontal word index.  Rotated:
fb_hwords//2 + ((-sample_y) >> 2); unrotated: fb_hwords//2 + (sample_x >> 2);
the shift is arithmetic (the operand is signed), i.e. floor division by 4,
and the result is truncated to the 16 bits of the unsigned(16) Signal. -/
def x_offs (g : Geometry) (cfg : Config) (st : StrokeState) : Nat :=
  if cfg.rotate_left then
    wrap16 ((fb_hwords g / 2 : Nat) + (-(toSigned16 st.sample_y)) / 4)
  else
    wrap16 ((fb_hwords g / 2 : Nat) + (toSigned16 st.sample_x) / 4)

/-- y_offs: combinational vertical index.  Rotated:
sample_x + (v_active >> 1); unrotated: sample_y + (v_active >> 1);
truncated to the 16 bits of the unsigned(16) Signal. -/
def y_offs (g : Geometry) (cfg : Config) (st : StrokeState) : Nat :=
  if cfg.rotate_left then
    wrap16 (toSigned16 st.sample_x + (g.v_active / 2 : Nat))
  else
    wrap16 (toSigned16 st.sample_y + (g.v_active / 2 : Nat))

/-- pixel_offs: combinational word offset y_offs * fb_hwords + x_offs,
truncated to the 32 bits of the unsigned(32) Signal. -/
def pixel_offs (g : Geometry) (cfg : Config) (st : StrokeState) : Nat :=
  (y_offs g cfg st * fb_hwords g + x_offs g cfg st) % 2 ^ 32

/-- new_color in the WRITE state: (sample_c >> 10) + hue, an arithmetic
shift of the signed color lane, truncated to the 4 bits of the
unsigned(4) Signal (low 4 bits of the two-complement sum). -/
def new_color (cfg : Config) (st : StrokeState) : Nat :=
  (((toSigned16 st.sample_c) / 1024 + (cfg.hue : Int)) % 16).toNat

/-- px_sum[4:8]: bits 4 to 7 of the byte extracted at read time, the
stored intensity nibble used for accumulation. -/
def intensity_old (st : StrokeState) : Nat := st.px_sum / 16 % 16

/-- The new packed pixel byte driven in the WRITE state: Cat(new_color, white)
when the accumulated intensity would reach or exceed 0xF, otherwise
Cat(new_color, px_sum[4:8] + sample_intensity).  Cat places its first
operand in the low bits, so the color sits in bits 0 to 3 and the
intensity in the bits from 4 up. -/
def write_byte (cfg : Config) (st : StrokeState) : Nat :=
  if 15 ≤ intensity_old st + st.sample_intensity then
    new_color cfg st + 16 * 15
  else
    new_color cfg st + 16 * (intensity_old st + st.sample_intensity)

/-- The 32-bit mask ~(Const(0xFF, unsigned(32)) << subpix_shift) used to
clear the addressed byte of the previously read word. -/
def mask32 (sh : Nat) : Nat := (2 ^ 32 - 1) ^^^ (255 <<< sh)

/-- bus.dat_w in the WRITE state: the previously read word with the
addressed byte masked out, OR-ed with the new packed byte shifted into
place. -/
def dat_w (cfg : Config) (st : StrokeState) : Nat :=
  (st.px_read &&& mask32 (subpix_shift cfg st)) |||
    (write_byte cfg st <<< subpix_shift cfg st)

/-- Combinational outputs of the wishbone master interface plus the
stream-ready handshake. -/
structure BusOut where
  stb : Bool
  cyc : Bool
  we : Bool
  dat_w : Nat
  adr : Nat
  sel : Nat
deriving DecidableEq

/-- All combinational outputs of the core in a given state. -/
structure EngineOut where
  ready : Bool
  bus : BusOut
deriving DecidableEq

/-- Combinational output function: point_stream.ready is driven only in
LATCH0; bus.stb and bus.cyc are driven only in READ (with we = 0) and
WRITE (with we = 1); bus.dat_w is driven only in WRITE; bus.adr and
bus.sel are registered. -/
def strokeOutputs (g : Geometry) (cfg : Config) (st : StrokeState) : EngineOut :=
  match st.fsm with
  | .LATCH0 =>
      { ready := true,
        bus := { stb := false, cyc := false, we := false, dat_w := 0,
                 adr := st.bus_adr, sel := st.bus_sel } }
  | .READ =>
      { ready := false,
        bus := { stb := true, cyc := true, we := false, dat_w := 0,
                 adr := st.bus_adr, sel := st.bus_sel } }
  | .WRITE =>
      { ready := false,
        bus := { stb := true, cyc := true, we := true, dat_w := dat_w cfg st,
                 adr := st.bus_adr, sel := st.bus_sel } }
  | _ =>
      { ready := false,
        bus := { stb := false, cyc := false, we := false, dat_w := 0,
                 adr := st.bus_adr, sel := st.bus_sel } }

/-- Reset values of every register: the FSM starts in OFF and every plain
Signal resets to its init value of 0. -/
def resetState : StrokeState :=
  { fsm := .OFF, sample_x := 0, sample_y := 0, sample_p := 0, sample_c := 0,
    sample_intensity := 0, px_read := 0, px_sum := 0, bus_adr := 0, bus_sel := 0 }

/-- One synchronous step of the FSM, without the ResetInserter.  Each state
mirrors the corresponding m.State block of the source:
OFF waits for enable; LATCH0 latches the scaled and offset point when
valid; LATCH1 performs the bounds check and registers the bus address;
READ captures dat_r and the extracted byte on acknowledge; WAIT, WAIT2 and
WAIT3 drain the memory latency; WRITE waits for the write acknowledge. -/
def strokeStepCore (g : Geometry) (st : StrokeState) (inp : Inputs) : StrokeState :=
  match st.fsm with
  | .OFF =>
      if inp.cfg.enable then { st with fsm := .LATCH0 } else st
  | .LATCH0 =>
      if inp.valid then
        { st with
          fsm := .LATCH1,
          sample_x := wrap16 ((toSigned16 inp.payload0) / 2 ^ inp.cfg.scale_x
                              + inp.cfg.x_offset),
          sample_y := wrap16 ((toSigned16 inp.payload1) / 2 ^ inp.cfg.scale_y
                              + inp.cfg.y_offset),
          sample_p := inp.payload2 % 65536,
          sample_c := inp.payload3 % 65536,
          sample_intensity := inp.cfg.intensity % 16 }
      else st
  | .LATCH1 =>
      if x_offs g inp.cfg st < fb_hwords g ∧ y_offs g inp.cfg st < g.v_active then
        { st with
          fsm := .READ,
          bus_sel := 15,
          bus_adr := (g.fb_base + pixel_offs g inp.cfg st) % 2 ^ g.addr_width }
      else
        { st with fsm := .LATCH0 }
  | .READ =>
      if inp.ack then
        { st with
          fsm := .WAIT,
          px_read := inp.dat_r % 2 ^ 32,
          px_sum := ((inp.dat_r % 2 ^ 32) >>> subpix_shift inp.cfg st) &&& 255 }
      else st
  | .WAIT => { st with fsm := .WAIT2 }
  | .WAIT2 => { st with fsm := .WAIT3 }
  | .WAIT3 => { st with fsm := .WRITE }
  | .WRITE =>
      if inp.ack then { st with fsm := .LATCH0 } else st

/-- One synchronous step including the ResetInserter on the sync domain:
whenever the owning framebuffer is disabled, every register returns to its
reset value on the next edge. -/
def strokeStep (g : Geometry) (st : StrokeState) (inp : Inputs) : StrokeState :=
  if inp.fb_enable then strokeStepCore g st inp else resetState

/-- Run the step function over a list of per-cycle inputs. -/
def runTrace (g : Geometry) (st : StrokeState) : List Inputs → StrokeState
  | [] => st
  | i :: rest => runTrace g (strokeStep g st i) rest

/-- The FSM component of one synchronous step, written out on its own so
that transition inversions can be stated and proved compactly. -/
def nextFsm (g : Geometry) (st : StrokeState) (inp : Inputs) : FsmState :=
  if inp.fb_enable then
    match st.fsm with
    | .OFF => if inp.cfg.enable then .LATCH0 else .OFF
    | .LATCH0 => if inp.valid then .LATCH1 else .LATCH0
    | .LATCH1 =>
        if x_offs g inp.cfg st < fb_hwords g ∧ y_offs g inp.cfg st < g.v_active then
          .READ
        else .LATCH0
    | .READ => if inp.ack then .WAIT else .READ
    | .WAIT => .WAIT2
    | .WAIT2 => .WAIT3
    | .WAIT3 => .WRITE
    | .WRITE => if inp.ack then .LATCH0 else .WRITE
  else .OFF

/-
  Concrete example values used by the witness and counterexample theorems.
-/

/-- Example geometry: a 64 by 32 framebuffer at 1 byte per pixel, so 16
words per row. -/
def gEx : Geometry :=
  { h_active := 64, v_active := 32, bytes_per_pixel := 1, fb_base := 0, addr_width := 32 }

/-- Example configuration. -/
def cfgEx : Config :=
  { hue := 5, intensity := 2, scale_x := 0, scale_y := 0, x_offset := 0,
    y_offset := 0, rotate_left := false, enable := true }

/-- Example state sitting in the WRITE state of a transaction. -/
def stWriteEx : StrokeState :=
  { fsm := .WRITE, sample_x := 0, sample_y := 0, sample_p := 0, sample_c := 0,
    sample_intensity := 2, px_read := 305419896, px_sum := 120,
    bus_adr := 0, bus_sel := 15 }

/-- Example quiet input: enabled, no point offered, no acknowledge. -/
def inpQuiet : Inputs :=
  { cfg := cfgEx, fb_enable := true, valid := false, payload0 := 0,
    payload1 := 0, payload2 := 0, payload3 := 0, ack := false, dat_r := 0 }

/-- Formalisation of the packed-pixel byte exactly as claim C6 words it:
color in the upper nibble, intensity in the lower nibble, with the existing
intensity for accumulation read from bits 3 to 0 of the extracted byte. -/
def write_byte_claimC6 (cfg : Config) (st : StrokeState) : Nat :=
  16 * new_color cfg st +
    (if 15 ≤ st.px_sum % 16 + st.sample_intensity then 15
     else st.px_sum % 16 + st.sample_intensity)

/-- Configuration for the C6 counterexample: hue 0, intensity step 1. -/
def cfgC6 : Config :=
  { hue := 0, intensity := 1, scale_x := 0, scale_y := 0, x_offset := 0,
    y_offset := 0, rotate_left := false, enable := true }

/-- State for the C6 counterexample: in WRITE with extracted byte 0x0F. -/
def stC6 : StrokeState :=
  { fsm := .WRITE, sample_x := 0, sample_y := 0, sample_p := 0, sample_c := 0,
    sample_intensity := 1, px_read := 15, px_sum := 15, bus_adr := 0, bus_sel := 15 }

/-- State for the C2 witness: latched point far off the right edge. -/
def stOobEx : StrokeState :=
  { fsm := .LATCH1, sample_x := 20000, sample_y := 0, sample_p := 0, sample_c := 0,
    sample_intensity := 2, px_read := 0, px_sum := 0, bus_adr := 7, bus_sel := 15 }

/-- State for the C4 witness: latched point at the origin. -/
def stLatchEx : StrokeState :=
  { fsm := .LATCH1, sample_x := 0, sample_y := 0, sample_p := 0, sample_c := 0,
    sample_intensity := 2, px_read := 0, px_sum := 0, bus_adr := 0, bus_sel := 0 }

/-- State for the C7 witness: a transaction waiting in READ. -/
def stReadEx : StrokeState :=
  { fsm := .READ, sample_x := 0, sample_y := 0, sample_p := 0, sample_c := 0,
    sample_intensity := 2, px_read := 0, px_sum := 0, bus_adr := 264, bus_sel := 15 }

/-- Input acknowledging the read with data 0x0F in the addressed byte. -/
def inpAckEx : Inputs := { inpQuiet with ack := true, dat_r := 15 }

/-- Input offering a point at the origin. -/
def inpValidEx : Inputs := { inpQuiet with valid := true }

/-- The example configuration with the intensity step changed from 2 to 9,
as an external register write might do in the middle of a transaction. -/
def cfgMut : Config := { cfgEx with intensity := 9 }

/-- The state reached from reset after seven enabled cycles: start the core,
accept the origin point with intensity step 2, pass the bounds check,
acknowledge the read and drain the three wait states, arriving in WRITE. -/
def stMidEx : StrokeState :=
  runTrace gEx resetState
    [inpQuiet, inpValidEx, inpQuiet, inpAckEx, inpQuiet, inpQuiet, inpQuiet]

/-- State whose latched coordinates give different subpixel shifts in the
two rotation modes: x = 1 shifts by 8 unrotated, y = 0 shifts by 0 rotated. -/
def stShiftEx : StrokeState :=
  { fsm := .WRITE, sample_x := 1, sample_y := 0, sample_p := 0, sample_c := 0,
    sample_intensity := 2, px_read := 0, px_sum := 0, bus_adr := 0, bus_sel := 15 }

/-- The example configuration with rotation enabled. -/
def cfgRotEx : Config := { cfgEx with rotate_left := true }

/-
  Bit-level helper lemmas about the mask-and-insert word update.
-/

/-- The subpixel shift is one of 0, 8, 16, 24, so the addressed byte lies
inside the 32-bit word. -/
theorem subpix_shift_add_eight_le (cfg : Config) (st : StrokeState) :
    subpix_shift cfg st + 8 ≤ 32 := by
  unfold subpix_shift
  split
  · omega
  · have : st.sample_x % 4 < 4 := Nat.mod_lt _ (by norm_num)
    omega

/-- The new color nibble fits in 4 bits. -/
theorem new_color_lt (cfg : Config) (st : StrokeState) : new_color cfg st < 16 := by
  unfold new_color
  omega

/-- The new packed pixel byte fits in 8 bits: in the saturating branch it is
new_color + 240, otherwise new_color + 16 * s with s at most 14. -/
theorem write_byte_lt (cfg : Config) (st : StrokeState) : write_byte cfg st < 256 := by
  unfold write_byte
  have := new_color_lt cfg st
  split <;> omega

/-- Extracting the byte back out of the masked-and-inserted word returns
exactly the inserted byte, for any previous word contents. -/
theorem insert_extract (A b sh : Nat) (hb : b < 256) (hsh : sh + 8 ≤ 32) :
    (((A &&& mask32 sh) ||| (b <<< sh)) >>> sh) % 256 = b := by
  have h256 : (256 : Nat) = 2 ^ 8 := by norm_num
  have h255 : (255 : Nat) = 2 ^ 8 - 1 := by norm_num
  apply Nat.eq_of_testBit_eq
  intro j
  rw [h256, Nat.testBit_mod_two_pow, Nat.testBit_shiftRight, Nat.testBit_or,
    Nat.testBit_and]
  unfold mask32
  rw [h255, Nat.testBit_xor, Nat.testBit_two_pow_sub_one, Nat.testBit_shiftLeft,
    Nat.testBit_shiftLeft, Nat.testBit_two_pow_sub_one]
  by_cases hj : j < 8
  · have h1 : sh + j < 32 := by omega
    have h2 : sh ≤ sh + j := by omega
    have h3 : sh + j - sh = j := by omega
    simp [h1, h2, h3, hj]
  · have hbj : b.testBit j = false := by
      apply Nat.testBit_lt_two_pow
      have : (2 : Nat) ^ 8 ≤ 2 ^ j := Nat.pow_le_pow_right (by norm_num) (by omega)
      omega
    simp [hj, hbj]

/-- Every bit of the word outside the inserted byte window is unchanged by
the mask-and-insert update. -/
theorem insert_outside (A b sh i : Nat) (hb : b < 256) (hi : i < 32)
    (ho : i < sh ∨ sh + 8 ≤ i) :
    ((A &&& mask32 sh) ||| (b <<< sh)).testBit i = A.testBit i := by
  have h255 : (255 : Nat) = 2 ^ 8 - 1 := by norm_num
  rw [Nat.testBit_or, Nat.testBit_and]
  unfold mask32
  rw [h255, Nat.testBit_xor, Nat.testBit_two_pow_sub_one, Nat.testBit_shiftLeft,
    Nat.testBit_shiftLeft, Nat.testBit_two_pow_sub_one]
  rcases ho with h | h
  · have h1 : ¬ sh ≤ i := by omega
    simp [hi, h1]
  · have h1 : sh ≤ i := by omega
    have h2 : ¬ i - sh < 8 := by omega
    have hbj : b.testBit (i - sh) = false := by
      apply Nat.testBit_lt_two_pow
      have : (2 : Nat) ^ 8 ≤ 2 ^ (i - sh) := Nat.pow_le_pow_right (by norm_num) (by omega)
      omega
    simp [hi, h1, h2, hbj]

/-- The byte the WRITE state deposits at the subpixel shift of the write
payload is exactly write_byte. -/
theorem dat_w_byte (cfg : Config) (st : StrokeState) :
    (dat_w cfg st >>> subpix_shift cfg st) % 256 = write_byte cfg st := by
  unfold dat_w
  exact insert_extract _ _ _ (write_byte_lt cfg st) (subpix_shift_add_eight_le cfg st)

/-
  Small characterization lemmas for the step and output functions, used to
  chain steps without unfolding nested applications.
-/

/-- The strobe is asserted exactly in the READ and WRITE states. -/
theorem outputs_stb_eq (g : Geometry) (cfg : Config) (st : StrokeState) :
    (strokeOutputs g cfg st).bus.stb
      = (decide (st.fsm = .READ) || decide (st.fsm = .WRITE)) := by
  cases hf : st.fsm <;> simp [strokeOutputs, hf]

/-- The write enable output is asserted exactly in the WRITE state. -/
theorem outputs_we_eq (g : Geometry) (cfg : Config) (st : StrokeState) :
    (strokeOutputs g cfg st).bus.we = decide (st.fsm = .WRITE) := by
  cases hf : st.fsm <;> simp [strokeOutputs, hf]

/-- The stream-ready output is asserted exactly in the LATCH0 state. -/
theorem outputs_ready_eq (g : Geometry) (cfg : Config) (st : StrokeState) :
    (strokeOutputs g cfg st).ready = decide (st.fsm = .LATCH0) := by
  cases hf : st.fsm <;> simp [strokeOutputs, hf]

/-- Step out of READ on acknowledge: capture the read word and the
extracted byte and move to WAIT. -/
theorem step_READ_ack (g : Geometry) (st : StrokeState) (inp : Inputs)
    (hf : st.fsm = .READ) (he : inp.fb_enable = true) (ha : inp.ack = true) :
    strokeStep g st inp
      = { st with
          fsm := .WAIT
          px_read := inp.dat_r % 2 ^ 32
          px_sum := ((inp.dat_r % 2 ^ 32) >>> subpix_shift inp.cfg st) &&& 255 } := by
  simp [strokeStep, strokeStepCore, hf, he, ha]

/-- Step out of WAIT: unconditional move to WAIT2. -/
theorem step_WAIT (g : Geometry) (st : StrokeState) (inp : Inputs)
    (hf : st.fsm = .WAIT) (he : inp.fb_enable = true) :
    strokeStep g st inp = { st with fsm := .WAIT2 } := by
  simp [strokeStep, strokeStepCore, hf, he]

/-- Step out of WAIT2: unconditional move to WAIT3. -/
theorem step_WAIT2 (g : Geometry) (st : StrokeState) (inp : Inputs)
    (hf : st.fsm = .WAIT2) (he : inp.fb_enable = true) :
    strokeStep g st inp = { st with fsm := .WAIT3 } := by
  simp [strokeStep, strokeStepCore, hf, he]

/-- Step out of WAIT3: unconditional move to WRITE. -/
theorem step_WAIT3 (g : Geometry) (st : StrokeState) (inp : Inputs)
    (hf : st.fsm = .WAIT3) (he : inp.fb_enable = true) :
    strokeStep g st inp = { st with fsm := .WRITE } := by
  simp [strokeStep, strokeStepCore, hf, he]









/-
  Claim theorems.
-/

/-- C1: for every accepted in-bounds point, the intensity nibble the WRITE
state deposits for the addressed pixel is the saturating sum
min 15 (existing intensity + latched intensity step): it is exactly 15 when
the sum reaches or exceeds 15 and the exact sum otherwise, never a wrap
modulo 16; consequently iterating the per-draw update N times from
intensity 0 with step s yields min 15 (N * s). -/
theorem C1_saturating_intensity (cfg : Config) (st : StrokeState) :
    (dat_w cfg st >>> subpix_shift cfg st) % 256 / 16
      = min 15 (intensity_old st + st.sample_intensity)
    ∧ ∀ (N s : Nat),
        (fun i => if 15 ≤ i + s then 15 else i + s)^[N] 0 = min 15 (N * s) := by
  constructor
  · rw [dat_w_byte]
    unfold write_byte
    have := new_color_lt cfg st
    split <;> omega
  · intro N s
    induction N with
    | zero => simp
    | succ n ih =>
        simp only [Function.iterate_succ_apply', ih, Nat.succ_mul]
        split <;> omega

/-- C5: the write payload equals the previously read word with the 8-bit
sub-field at the computed shift masked out and the new packed byte OR-ed in
at the same shift, so every bit of the 32-bit word outside that one byte is
bit-for-bit the bit of the previously read word. -/
theorem C5_single_byte_update (cfg : Config) (st : StrokeState) :
    dat_w cfg st
      = (st.px_read &&& mask32 (subpix_shift cfg st)) |||
          (write_byte cfg st <<< subpix_shift cfg st)
    ∧ (dat_w cfg st >>> subpix_shift cfg st) % 256 = write_byte cfg st
    ∧ ∀ i, i < 32 →
        (i < subpix_shift cfg st ∨ subpix_shift cfg st + 8 ≤ i) →
        (dat_w cfg st).testBit i = st.px_read.testBit i := by
  refine ⟨rfl, dat_w_byte cfg st, ?_⟩
  intro i hi ho
  exact insert_outside _ _ _ _ (write_byte_lt cfg st) hi ho

/-- Witness for C5 at a concrete write: the deposited byte reads back and
bit 8, just above the byte window at shift 0, is untouched. -/
theorem C5_single_byte_update_witness :
    (dat_w cfgEx stWriteEx >>> subpix_shift cfgEx stWriteEx) % 256
        = write_byte cfgEx stWriteEx
    ∧ (dat_w cfgEx stWriteEx).testBit 8 = stWriteEx.px_read.testBit 8 :=
  ⟨(C5_single_byte_update cfgEx stWriteEx).2.1,
   (C5_single_byte_update cfgEx stWriteEx).2.2 8 (by decide) (by decide)⟩







/-- Counterexample to C6 as stated: with a stored byte 0x0F (claimed
layout: intensity 15, so a further draw should saturate at 15) and step 1,
the engine actually produces the byte 0x10, because it accumulates on the
upper nibble and writes the color into the lower nibble. -/
theorem C6_counterexample :
    (dat_w cfgC6 stC6 >>> subpix_shift cfgC6 stC6) % 256
      ≠ write_byte_claimC6 cfgC6 stC6 := by decide

/-- C6 amended: in each packed framebuffer pixel byte the 4-bit color field
occupies the LOWER nibble (bits 3 to 0) and the 4-bit intensity field the
UPPER nibble (bits 7 to 4); the engine reads the existing intensity for
accumulation from bits 7 to 4 of the extracted byte and writes the new
color into bits 3 to 0. -/
theorem C6_amended_layout (cfg : Config) (st : StrokeState) :
    (dat_w cfg st >>> subpix_shift cfg st) % 256 % 16 = new_color cfg st
    ∧ (dat_w cfg st >>> subpix_shift cfg st) % 256 / 16
        = min 15 (st.px_sum / 16 % 16 + st.sample_intensity) := by
  rw [dat_w_byte]
  unfold write_byte intensity_old
  have := new_color_lt cfg st
  constructor
  · split <;> omega
  · split <;> omega

/-- C9: the 4-bit color written into the addressed byte of the write payload
is the latched color lane arithmetically shifted right by 10 plus the
configured hue, truncated to 4 bits; it never depends on the previously
read word or extracted byte, so the stored color is always overwritten with
no blending, in the saturating case included. -/
theorem C9_color_overwrite (cfg : Config) (st : StrokeState) :
    (dat_w cfg st >>> subpix_shift cfg st) % 256 % 16
      = ((toSigned16 st.sample_c / 1024 + (cfg.hue : Int)) % 16).toNat
    ∧ ∀ (r p : Nat),
        (dat_w cfg { st with px_read := r, px_sum := p }
            >>> subpix_shift cfg { st with px_read := r, px_sum := p }) % 256 % 16
          = (dat_w cfg st >>> subpix_shift cfg st) % 256 % 16 := by
  have hmain : ∀ s2 : StrokeState, s2.sample_c = st.sample_c →
      (dat_w cfg s2 >>> subpix_shift cfg s2) % 256 % 16
        = ((toSigned16 st.sample_c / 1024 + (cfg.hue : Int)) % 16).toNat := by
    intro s2 hc
    rw [dat_w_byte]
    have h := new_color_lt cfg s2
    have he : new_color cfg s2
        = ((toSigned16 st.sample_c / 1024 + (cfg.hue : Int)) % 16).toNat := by
      unfold new_color
      rw [hc]
    unfold write_byte
    split <;> omega
  exact ⟨hmain st rfl, fun r p =>
    (hmain { st with px_read := r, px_sum := p } rfl).trans (hmain st rfl).symm⟩

/-- The low two bits of a raw 16-bit register value agree with the residue
modulo 4 of its signed interpretation. -/
theorem mod4_toSigned16 (n : Nat) : (toSigned16 n % 4).toNat = n % 4 := by
  unfold toSigned16
  split <;> omega

/-- C2: a latched point whose resolved horizontal word index reaches the
framebuffer width in words, or whose vertical index reaches the active
height, is discarded silently: in the bounds-check state no strobe or cycle
is asserted, the next state is the point-accepting state LATCH0 (one step,
no stall), where ready is asserted and still no strobe is asserted, and the
registered bus address is left untouched, so no transaction is ever issued
for that point and framebuffer memory is unchanged. -/
theorem C2_out_of_bounds_discard (g : Geometry) (st : StrokeState) (inp : Inputs)
    (hfsm : st.fsm = .LATCH1) (hen : inp.fb_enable = true)
    (hoob : fb_hwords g ≤ x_offs g inp.cfg st ∨ g.v_active ≤ y_offs g inp.cfg st) :
    (strokeOutputs g inp.cfg st).bus.stb = false
    ∧ (strokeOutputs g inp.cfg st).bus.cyc = false
    ∧ (strokeStep g st inp).fsm = .LATCH0
    ∧ (∀ cfg2, (strokeOutputs g cfg2 (strokeStep g st inp)).ready = true
        ∧ (strokeOutputs g cfg2 (strokeStep g st inp)).bus.stb = false)
    ∧ (strokeStep g st inp).bus_adr = st.bus_adr := by
  have hc : ¬ (x_offs g inp.cfg st < fb_hwords g ∧ y_offs g inp.cfg st < g.v_active) := by
    rcases hoob with h | h <;> omega
  refine ⟨?_, ?_, ?_, ?_, ?_⟩ <;>
    simp [strokeOutputs, strokeStep, strokeStepCore, hfsm, hen, hc]



/-- Witness for C2 at a concrete out-of-bounds point. -/
theorem C2_out_of_bounds_discard_witness :
    (strokeOutputs gEx inpQuiet.cfg stOobEx).bus.stb = false
    ∧ (strokeStep gEx stOobEx inpQuiet).fsm = .LATCH0
    ∧ (strokeOutputs gEx inpQuiet.cfg (strokeStep gEx stOobEx inpQuiet)).ready = true
    ∧ (strokeStep gEx stOobEx inpQuiet).bus_adr = stOobEx.bus_adr :=
  have h := C2_out_of_bounds_discard gEx stOobEx inpQuiet (by decide) (by decide)
    (by decide)
  ⟨h.1, h.2.2.1, (h.2.2.2.1 inpQuiet.cfg).1, h.2.2.2.2⟩

/-- C4: the coordinate-to-memory mapping is exactly the one of the source:
unrotated, sub-word shift is (x mod 4) * 8, the horizontal word index is
half the framebuffer width in words plus x arithmetically shifted right by
2, and the vertical index is y plus half the active height; rotated left,
the same formulas with -y in place of x and x in place of y; and the
registered word address of an accepted in-bounds point is
framebuffer base + vertical index * row stride in words + horizontal word
index (all indices truncated to their 16-bit signals, and assuming the
address arithmetic does not overflow the 32-bit offset or the bus address
width). -/
theorem C4_address_mapping (g : Geometry) (cfg : Config) (st : StrokeState)
    (inp : Inputs)
    (hfsm : st.fsm = .LATCH1) (hen : inp.fb_enable = true)
    (hin : x_offs g inp.cfg st < fb_hwords g ∧ y_offs g inp.cfg st < g.v_active)
    (h32 : y_offs g inp.cfg st * fb_hwords g + x_offs g inp.cfg st < 2 ^ 32)
    (hof : g.fb_base + (y_offs g inp.cfg st * fb_hwords g + x_offs g inp.cfg st)
            < 2 ^ g.addr_width) :
    (cfg.rotate_left = false →
        subpix_shift cfg st = (toSigned16 st.sample_x % 4).toNat * 8
      ∧ x_offs g cfg st = wrap16 ((fb_hwords g / 2 : Nat) + toSigned16 st.sample_x / 4)
      ∧ y_offs g cfg st = wrap16 (toSigned16 st.sample_y + (g.v_active / 2 : Nat)))
    ∧ (cfg.rotate_left = true →
        subpix_shift cfg st = ((-(toSigned16 st.sample_y)) % 4).toNat * 8
      ∧ x_offs g cfg st = wrap16 ((fb_hwords g / 2 : Nat) + (-(toSigned16 st.sample_y)) / 4)
      ∧ y_offs g cfg st = wrap16 (toSigned16 st.sample_x + (g.v_active / 2 : Nat)))
    ∧ (strokeStep g st inp).bus_adr
        = g.fb_base + (y_offs g inp.cfg st * fb_hwords g + x_offs g inp.cfg st) := by
  refine ⟨?_, ?_, ?_⟩
  · intro hrot
    exact ⟨by simp [subpix_shift, hrot, mod4_toSigned16],
      by simp [x_offs, hrot], by simp [y_offs, hrot]⟩
  · intro hrot
    exact ⟨by simp [subpix_shift, hrot], by simp [x_offs, hrot], by simp [y_offs, hrot]⟩
  · have hstep : (strokeStep g st inp).bus_adr
        = (g.fb_base + pixel_offs g inp.cfg st) % 2 ^ g.addr_width := by
      simp [strokeStep, strokeStepCore, hfsm, hen, hin]
    rw [hstep]
    unfold pixel_offs
    rw [Nat.mod_eq_of_lt h32, Nat.mod_eq_of_lt hof]



/-- Witness for C4 at a concrete in-bounds point of the example geometry:
the registered address is base + 16 * 16 + 8 = 264 and the unrotated
formulas evaluate as claimed. -/
theorem C4_address_mapping_witness :
    (strokeStep gEx stLatchEx inpQuiet).bus_adr = 264
    ∧ subpix_shift cfgEx stLatchEx = (toSigned16 stLatchEx.sample_x % 4).toNat * 8 :=
  have h := C4_address_mapping gEx cfgEx stLatchEx inpQuiet (by decide) (by decide)
    (by decide) (by decide) (by decide)
  ⟨by rw [h.2.2]; decide, (h.1 (by decide)).1⟩

/-- C7: on every transaction, after the read is acknowledged the engine
spends exactly three consecutive states WAIT, WAIT2, WAIT3 in which no bus
request is asserted, and only then enters WRITE where the write request is
asserted; the drain happens unconditionally, whatever the memory inputs do
in the meantime. -/
theorem C7_fixed_latency_drain (g : Geometry) (cfg : Config) (st : StrokeState)
    (i1 i2 i3 : Inputs)
    (hfsm : st.fsm = .READ) (hack : i1.ack = true)
    (h1 : i1.fb_enable = true) (h2 : i2.fb_enable = true) (h3 : i3.fb_enable = true) :
    (strokeStep g st i1).fsm = .WAIT
    ∧ (strokeStep g (strokeStep g st i1) i2).fsm = .WAIT2
    ∧ (strokeStep g (strokeStep g (strokeStep g st i1) i2) i3).fsm = .WAIT3
    ∧ (strokeOutputs g cfg (strokeStep g st i1)).bus.stb = false
    ∧ (strokeOutputs g cfg (strokeStep g (strokeStep g st i1) i2)).bus.stb = false
    ∧ (strokeOutputs g cfg
        (strokeStep g (strokeStep g (strokeStep g st i1) i2) i3)).bus.stb = false
    ∧ ∀ i4 : Inputs, i4.fb_enable = true →
        (strokeStep g (strokeStep g (strokeStep g (strokeStep g st i1) i2) i3) i4).fsm
            = .WRITE
        ∧ (strokeOutputs g cfg
            (strokeStep g (strokeStep g (strokeStep g (strokeStep g st i1) i2) i3) i4)).bus.stb
            = true
        ∧ (strokeOutputs g cfg
            (strokeStep g (strokeStep g (strokeStep g (strokeStep g st i1) i2) i3) i4)).bus.we
            = true := by
  have s1 : (strokeStep g st i1).fsm = .WAIT := by
    rw [step_READ_ack g st i1 hfsm h1 hack]
  have s2 : (strokeStep g (strokeStep g st i1) i2).fsm = .WAIT2 := by
    rw [step_WAIT g (strokeStep g st i1) i2 s1 h2]
  have s3 : (strokeStep g (strokeStep g (strokeStep g st i1) i2) i3).fsm = .WAIT3 := by
    rw [step_WAIT2 g (strokeStep g (strokeStep g st i1) i2) i3 s2 h3]
  refine ⟨s1, s2, s3, ?_, ?_, ?_, ?_⟩
  · rw [outputs_stb_eq]
    simp [s1]
  · rw [outputs_stb_eq]
    simp [s2]
  · rw [outputs_stb_eq]
    simp [s3]
  · intro i4 h4
    have s4 : (strokeStep g (strokeStep g (strokeStep g (strokeStep g st i1) i2) i3) i4).fsm
        = .WRITE := by
      rw [step_WAIT3 g (strokeStep g (strokeStep g (strokeStep g st i1) i2) i3) i4 s3 h4]
    refine ⟨s4, ?_, ?_⟩
    · rw [outputs_stb_eq]
      simp [s4]
    · rw [outputs_we_eq]
      simp [s4]





/-- Witness for C7 on a concrete acknowledged read followed by three quiet
cycles. -/
theorem C7_fixed_latency_drain_witness :
    (strokeStep gEx stReadEx inpAckEx).fsm = .WAIT
    ∧ (strokeOutputs gEx cfgEx
        (strokeStep gEx (strokeStep gEx stReadEx inpAckEx) inpQuiet)).bus.stb = false
    ∧ (strokeStep gEx (strokeStep gEx (strokeStep gEx (strokeStep gEx stReadEx inpAckEx)
        inpQuiet) inpQuiet) inpQuiet).fsm = .WRITE :=
  have h := C7_fixed_latency_drain gEx cfgEx stReadEx inpAckEx inpQuiet inpQuiet
    (by decide) (by decide) (by decide) (by decide) (by decide)
  ⟨h.1, h.2.2.2.2.1, (h.2.2.2.2.2.2 inpQuiet (by decide)).1⟩

/-- The state reached by one step has the FSM state given by nextFsm. -/
theorem step_fsm (g : Geometry) (st : StrokeState) (inp : Inputs) :
    (strokeStep g st inp).fsm = nextFsm g st inp := by
  by_cases he : inp.fb_enable = true
  · cases hf : st.fsm <;>
      simp only [strokeStep, strokeStepCore, nextFsm, he, hf, if_true] <;>
      (try split) <;> simp [hf]
  · simp [strokeStep, nextFsm, resetState, he]

/-- Inversion of the transitions into the WAIT chain and into WRITE: WAIT is
entered only from READ on an acknowledged cycle, WAIT2 only from WAIT, WAIT3
only from WAIT2, and WRITE only from WAIT3 or by holding WRITE while the
write is not yet acknowledged. -/
theorem nextFsm_inv (g : Geometry) (st : StrokeState) (inp : Inputs) :
    (nextFsm g st inp = .WAIT →
        st.fsm = .READ ∧ inp.ack = true ∧ inp.fb_enable = true)
    ∧ (nextFsm g st inp = .WAIT2 → st.fsm = .WAIT)
    ∧ (nextFsm g st inp = .WAIT3 → st.fsm = .WAIT2)
    ∧ (nextFsm g st inp = .WRITE →
        st.fsm = .WAIT3 ∨ (st.fsm = .WRITE ∧ inp.ack = false)) := by
  unfold nextFsm
  by_cases he : inp.fb_enable = true
  · rw [if_pos he]
    cases hf : st.fsm <;>
      refine ⟨?_, ?_, ?_, ?_⟩ <;> intro h <;>
        first
          | (exact absurd h (by decide))
          | (split at h <;> (try split at h) <;> simp_all)
          | simp_all
  · rw [if_neg he]
    refine ⟨?_, ?_, ?_, ?_⟩ <;> intro h <;> exact absurd h (by decide)

/-- The four latched sample registers are assigned only in LATCH0, so any
enabled step taken outside LATCH0 leaves them unchanged. -/
theorem step_samples_stable (g : Geometry) (st : StrokeState) (inp : Inputs)
    (he : inp.fb_enable = true) (hne : st.fsm ≠ .LATCH0) :
    (strokeStep g st inp).sample_x = st.sample_x
    ∧ (strokeStep g st inp).sample_y = st.sample_y
    ∧ (strokeStep g st inp).sample_c = st.sample_c
    ∧ (strokeStep g st inp).sample_intensity = st.sample_intensity := by
  unfold strokeStep strokeStepCore
  rw [if_pos he]
  cases hf : st.fsm
  case LATCH0 => exact absurd hf hne
  all_goals dsimp only
  all_goals first
    | (split <;> exact ⟨rfl, rfl, rfl, rfl⟩)
    | exact ⟨rfl, rfl, rfl, rfl⟩

/-- C3: in every state at most one transaction is requested, and it is a
read (in READ) or a write (in WRITE), never both; the only path into WRITE
is READ acknowledged, then the three drain states WAIT, WAIT2, WAIT3 in
order, so the read of a point fully completes, drain included, strictly
before its write request is asserted, and transactions of distinct points
cannot interleave; and the four latched sample registers are unmodified by
every enabled step taken outside the capture state, hence stable from
capture until the transaction completes or is discarded. -/
theorem C3_serialized_transactions (g : Geometry) (cfg : Config)
    (st : StrokeState) (inp : Inputs) :
    ((strokeOutputs g cfg st).bus.stb = true →
        (st.fsm = .READ ∧ (strokeOutputs g cfg st).bus.we = false)
        ∨ (st.fsm = .WRITE ∧ (strokeOutputs g cfg st).bus.we = true))
    ∧ ((strokeStep g st inp).fsm = .WAIT →
        st.fsm = .READ ∧ inp.ack = true ∧ inp.fb_enable = true)
    ∧ ((strokeStep g st inp).fsm = .WAIT2 → st.fsm = .WAIT)
    ∧ ((strokeStep g st inp).fsm = .WAIT3 → st.fsm = .WAIT2)
    ∧ ((strokeStep g st inp).fsm = .WRITE →
        st.fsm = .WAIT3 ∨ (st.fsm = .WRITE ∧ inp.ack = false))
    ∧ (inp.fb_enable = true → st.fsm ≠ .LATCH0 →
        (strokeStep g st inp).sample_x = st.sample_x
        ∧ (strokeStep g st inp).sample_y = st.sample_y
        ∧ (strokeStep g st inp).sample_c = st.sample_c
        ∧ (strokeStep g st inp).sample_intensity = st.sample_intensity) := by
  have hinv := nextFsm_inv g st inp
  refine ⟨?_, ?_, ?_, ?_, ?_, ?_⟩
  · rw [outputs_stb_eq, outputs_we_eq]
    intro h
    by_cases hr : st.fsm = .READ
    · exact Or.inl ⟨hr, by simp [hr]⟩
    · by_cases hw : st.fsm = .WRITE
      · exact Or.inr ⟨hw, by simp [hw]⟩
      · simp [hr, hw] at h
  · intro h
    rw [step_fsm] at h
    exact hinv.1 h
  · intro h
    rw [step_fsm] at h
    exact hinv.2.1 h
  · intro h
    rw [step_fsm] at h
    exact hinv.2.2.1 h
  · intro h
    rw [step_fsm] at h
    exact hinv.2.2.2 h
  · exact fun he hne => step_samples_stable g st inp he hne

/-- Witness for C3: at the concrete state waiting in READ the strobe is
asserted and is indeed the read of the current point. -/
theorem C3_serialized_transactions_witness :
    (stReadEx.fsm = .READ ∧ (strokeOutputs gEx cfgEx stReadEx).bus.we = false)
    ∨ (stReadEx.fsm = .WRITE ∧ (strokeOutputs gEx cfgEx stReadEx).bus.we = true) :=
  (C3_serialized_transactions gEx cfgEx stReadEx inpAckEx).1 (by decide)

/-
  Congruence lemmas: which configuration fields each combinational function
  actually reads.
-/

/-- The subpixel shift reads only rotate_left from the configuration. -/
theorem subpix_shift_congr (c1 c2 : Config) (st : StrokeState)
    (h : c1.rotate_left = c2.rotate_left) :
    subpix_shift c1 st = subpix_shift c2 st := by
  unfold subpix_shift
  rw [h]

/-- The horizontal word index reads only rotate_left from the configuration. -/
theorem x_offs_congr (g : Geometry) (c1 c2 : Config) (st : StrokeState)
    (h : c1.rotate_left = c2.rotate_left) :
    x_offs g c1 st = x_offs g c2 st := by
  unfold x_offs
  rw [h]

/-- The vertical index reads only rotate_left from the configuration. -/
theorem y_offs_congr (g : Geometry) (c1 c2 : Config) (st : StrokeState)
    (h : c1.rotate_left = c2.rotate_left) :
    y_offs g c1 st = y_offs g c2 st := by
  unfold y_offs
  rw [h]

/-- The pixel offset reads only rotate_left from the configuration. -/
theorem pixel_offs_congr (g : Geometry) (c1 c2 : Config) (st : StrokeState)
    (h : c1.rotate_left = c2.rotate_left) :
    pixel_offs g c1 st = pixel_offs g c2 st := by
  unfold pixel_offs
  rw [x_offs_congr g c1 c2 st h, y_offs_congr g c1 c2 st h]

/-- The new color reads only hue from the configuration. -/
theorem new_color_congr (c1 c2 : Config) (st : StrokeState)
    (h : c1.hue = c2.hue) : new_color c1 st = new_color c2 st := by
  unfold new_color
  rw [h]

/-- The write byte reads only hue from the configuration. -/
theorem write_byte_congr (c1 c2 : Config) (st : StrokeState)
    (h : c1.hue = c2.hue) : write_byte c1 st = write_byte c2 st := by
  unfold write_byte
  rw [new_color_congr c1 c2 st h]

/-- The write payload reads only hue and rotate_left from the
configuration. -/
theorem dat_w_congr (c1 c2 : Config) (st : StrokeState)
    (hrot : c1.rotate_left = c2.rotate_left) (hhue : c1.hue = c2.hue) :
    dat_w c1 st = dat_w c2 st := by
  unfold dat_w
  rw [subpix_shift_congr c1 c2 st hrot, write_byte_congr c1 c2 st hhue]

/-- The color nibble of the write payload, in terms of the current hue. -/
theorem dat_w_color (cfg : Config) (st : StrokeState) :
    (dat_w cfg st >>> subpix_shift cfg st) % 256 % 16
      = ((toSigned16 st.sample_c / 1024 + (cfg.hue : Int)) % 16).toNat := by
  rw [dat_w_byte]
  have h := new_color_lt cfg st
  have he : new_color cfg st
      = ((toSigned16 st.sample_c / 1024 + (cfg.hue : Int)) % 16).toNat := rfl
  unfold write_byte
  split <;> omega

/-- Counterexample to C8 as stated: reach WRITE from reset with intensity
step 2 latched, then change the configured step to 9; the write payload
still accumulates by the captured 2, not by the current 9, so the new value
of the field does not take effect on the transaction in progress. -/
theorem C8_counterexample :
    stMidEx.fsm = .WRITE
    ∧ stMidEx.sample_intensity = 2
    ∧ cfgMut.intensity = 9
    ∧ ((strokeOutputs gEx cfgMut stMidEx).bus.dat_w
        >>> subpix_shift cfgMut stMidEx) % 256 / 16 = 2
    ∧ ¬ ((strokeOutputs gEx cfgMut stMidEx).bus.dat_w
        >>> subpix_shift cfgMut stMidEx) % 256 / 16
          = min 15 (stMidEx.px_sum / 16 % 16 + cfgMut.intensity) := by decide

/-- C8 amended: hue, rotate_left and the enables are read combinationally
every cycle and take effect immediately, on a transaction already in
progress included; intensity step, scale_x, scale_y, x_offset, y_offset and
the input point itself are consumed only in the capture state LATCH0, where
they are folded into the latched sample registers, so outside LATCH0 the
step and the outputs are insensitive to them and a transaction in progress
keeps using the values captured with its point; each field still acts
independently, with no atomic multi-field update. -/
theorem C8_amended_config_latching (g : Geometry) (st : StrokeState)
    (i1 i2 : Inputs)
    (hne : st.fsm ≠ .LATCH0)
    (hhue : i1.cfg.hue = i2.cfg.hue)
    (hrot : i1.cfg.rotate_left = i2.cfg.rotate_left)
    (hen : i1.cfg.enable = i2.cfg.enable)
    (hfb : i1.fb_enable = i2.fb_enable)
    (hack : i1.ack = i2.ack)
    (hdr : i1.dat_r = i2.dat_r) :
    strokeStep g st i1 = strokeStep g st i2
    ∧ strokeOutputs g i1.cfg st = strokeOutputs g i2.cfg st
    ∧ (st.fsm = .WRITE →
        ((strokeOutputs g i1.cfg st).bus.dat_w >>> subpix_shift i1.cfg st) % 256 % 16
          = ((toSigned16 st.sample_c / 1024 + (i1.cfg.hue : Int)) % 16).toNat) := by
  refine ⟨?_, ?_, ?_⟩
  · unfold strokeStep
    rw [hfb]
    split
    · unfold strokeStepCore
      cases hf : st.fsm
      case LATCH0 => exact absurd hf hne
      all_goals
        first
          | rfl
          | (simp only [hhue, hrot, hen, hack, hdr,
              subpix_shift_congr i1.cfg i2.cfg st hrot,
              x_offs_congr g i1.cfg i2.cfg st hrot,
              y_offs_congr g i1.cfg i2.cfg st hrot,
              pixel_offs_congr g i1.cfg i2.cfg st hrot])
    · rfl
  · cases hf : st.fsm <;>
      simp only [strokeOutputs, hf, dat_w_congr i1.cfg i2.cfg st hrot hhue]
  · intro hw
    have : (strokeOutputs g i1.cfg st).bus.dat_w = dat_w i1.cfg st := by
      simp [strokeOutputs, hw]
    rw [this, dat_w_color]

/-- Witness for C8 amended: concrete agreement of the step and the outputs
under a change of the intensity step alone, in the READ state. -/
theorem C8_amended_config_latching_witness :
    strokeStep gEx stReadEx inpAckEx
        = strokeStep gEx stReadEx { inpAckEx with cfg := cfgMut }
    ∧ strokeOutputs gEx inpAckEx.cfg stReadEx
        = strokeOutputs gEx cfgMut stReadEx :=
  have h := C8_amended_config_latching gEx stReadEx inpAckEx
    { inpAckEx with cfg := cfgMut } (by decide) (by decide) (by decide)
    (by decide) (by decide) (by decide) (by decide)
  ⟨h.1, h.2.1⟩

/-- C10: the subpixel shift is a pure combinational function of the latched
coordinates and the current rotate_left flag; any enabled step outside the
capture state leaves it unchanged, so over a transaction during which
rotate_left is held constant the shift used at the read equals the shift
used at the write; and there exist latched coordinates on which the two
rotation modes give different shifts, so toggling rotate_left between the
read and the write of one transaction can address different sub-fields. -/
theorem C10_shift_read_write_consistency (g : Geometry) :
    (∀ (c1 c2 : Config) (s1 s2 : StrokeState),
        c1.rotate_left = c2.rotate_left → s1.sample_x = s2.sample_x →
        s1.sample_y = s2.sample_y → subpix_shift c1 s1 = subpix_shift c2 s2)
    ∧ (∀ (cfg : Config) (st : StrokeState) (inp : Inputs),
        inp.fb_enable = true → st.fsm ≠ .LATCH0 →
        subpix_shift cfg (strokeStep g st inp) = subpix_shift cfg st)
    ∧ (∃ (c1 c2 : Config) (st : StrokeState),
        c1.rotate_left ≠ c2.rotate_left ∧ subpix_shift c1 st ≠ subpix_shift c2 st) := by
  refine ⟨?_, ?_, ?_⟩
  · intro c1 c2 s1 s2 hr hx hy
    unfold subpix_shift
    rw [hr, hx, hy]
  · intro cfg st inp he hne
    have h := step_samples_stable g st inp he hne
    unfold subpix_shift
    rw [h.1, h.2.1]
  · exact ⟨cfgRotEx, cfgEx, stShiftEx, by decide, by decide⟩

/-- Witness for C10: concrete equality of the shifts under an intensity-only
configuration change, and across one enabled step out of READ. -/
theorem C10_shift_read_write_consistency_witness :
    subpix_shift cfgEx stShiftEx = subpix_shift cfgMut stShiftEx
    ∧ subpix_shift cfgEx (strokeStep gEx stReadEx inpAckEx)
        = subpix_shift cfgEx stReadEx :=
  ⟨(C10_shift_read_write_consistency gEx).1 cfgEx cfgMut stShiftEx stShiftEx
      (by decide) rfl rfl,
   (C10_shift_read_write_consistency gEx).2.1 cfgEx stReadEx inpAckEx
      (by decide) (by decide)⟩

end RasterStroke
